import Mathlib

/-!
Verification development for the event-sourced scheduling subsystem:
a shallow embedding of the durable event log (`src/core/event-log.ts`),
the cron job scheduler (`src/task/cron/engine.ts`), the generic cron
listener (`src/task/cron/listener.ts`) and the heartbeat
(`src/task/heartbeat/heartbeat.ts`), together with theorems settling the
spec's claims about them.

Modelling conventions:
  - JS strings are Lean `String`s (backed by `List Char`); the handful of
    JS library calls (`trim`, regex matching, `Number`, `Date` parsing)
    are modelled explicitly below, each with a comment stating the scope
    of the model.
  - Asynchronous effects (the durable write, the engine call, delivery)
    are inputs: an append outcome is a `Bool`, an engine call outcome is
    `Except String String`, a delivery target is `Option Bool`
    (`none` = no target registered, `some b` = the `deliver` call
    succeeds iff `b`).
  - `Date.now()` / the injected clock is a single `nowMs : Int` input.
-/

-- ==================== JS string primitives ====================

/-- The characters `\s` matches (the ASCII subset of JS whitespace;
exotic Unicode whitespace is not modelled). -/
def jsWs (c : Char) : Bool :=
  c = ' ' || c = '\t' || c = '\n' || c = '\r' || c = '\x0b' || c = '\x0c'

/-- Model of `String.prototype.trim` on the character list. -/
def jsTrimL (l : List Char) : List Char :=
  ((l.dropWhile jsWs).reverse.dropWhile jsWs).reverse

/-- Model of `String.prototype.trim`. -/
def jsTrim (s : String) : String :=
  String.mk (jsTrimL s.toList)

/-- Numeric value of a digit run (the run is known to consist of digits). -/
def digitsToNat (l : List Char) : Nat :=
  l.foldl (fun acc c => 10 * acc + (c.toNat - ('0').toNat)) 0

/-- Split a character list at every occurrence of `c`
(model of `String.prototype.split` with a single-character separator). -/
def splitOnChar (c : Char) : List Char → List (List Char)
  | [] => [[]]
  | x :: xs =>
    let r := splitOnChar c xs
    if x = c then [] :: r
    else
      match r with
      | h :: t => (x :: h) :: t
      | [] => [[x]]

/-- Maximal whitespace-free words of a list, in order: together with
dropping empty chunks this models `split(/\s+/)` on trimmed input. -/
def wordsOf (l : List Char) : List (List Char) :=
  (l.foldr
    (fun c acc =>
      if jsWs c then [] :: acc
      else
        match acc with
        | [] => [[c]]
        | h :: t => (c :: h) :: t)
    []).filter (fun w => ¬ w.isEmpty)

/-- Case-insensitive prefix match: `some rest` when `pat` (case-insensitively)
prefixes `s`, with `rest` the remainder. Models a literal run in a regex
compiled with the `i` flag. -/
def ciPrefix : List Char → List Char → Option (List Char)
  | [], s => some s
  | _ :: _, [] => none
  | p :: ps, c :: cs => if p.toLower = c.toLower then ciPrefix ps cs else none

/-- Auxiliary for `lineStarts`: the suffixes that begin right after a `'\n'`. -/
def lineStartsAux : List Char → List (List Char)
  | [] => []
  | c :: rest =>
    if c = '\n' then rest :: lineStartsAux rest else lineStartsAux rest

/-- The suffixes of `s` at which a `^` anchor of an `m`-flag regex can match:
the whole string and every position following a newline. -/
def lineStarts (s : List Char) : List (List Char) :=
  s :: lineStartsAux s

-- ==================== Heartbeat response parser ====================

/-- The three structured heartbeat statuses (heartbeat.ts `HeartbeatStatus`). -/
inductive HeartbeatStatus where
  | HEARTBEAT_OK
  | CHAT_YES
  | CHAT_NO
deriving DecidableEq, BEq, Repr

/-- heartbeat.ts `ParsedHeartbeatResponse`. -/
structure ParsedHeartbeatResponse where
  status : HeartbeatStatus
  reason : String
  content : String
  unparsed : Bool
deriving DecidableEq, BEq, Repr

/-- Does the remainder after a candidate match satisfy `\s*$` under the `m`
flag: only whitespace up to the next newline (or the end of the string)? -/
def statusLineEnd (s : List Char) : Bool :=
  (s.takeWhile (fun c => c ≠ '\n')).all jsWs

/-- One attempt of `/^\s*STATUS:\s*(HEARTBEAT_OK|CHAT_YES|CHAT_NO)\s*$/im`
at an anchor position: leading `\s*` (which may cross newlines), the literal
`STATUS:` case-insensitively, `\s*`, one of the three tokens, then `\s*$`. -/
def tryStatus (s : List Char) : Option HeartbeatStatus :=
  match ciPrefix ("STATUS:".toList) (s.dropWhile jsWs) with
  | none => none
  | some r =>
    let r2 := r.dropWhile jsWs
    match ciPrefix ("HEARTBEAT_OK".toList) r2 with
    | some rest => if statusLineEnd rest then some .HEARTBEAT_OK else none
    | none =>
      match ciPrefix ("CHAT_YES".toList) r2 with
      | some rest => if statusLineEnd rest then some .CHAT_YES else none
      | none =>
        match ciPrefix ("CHAT_NO".toList) r2 with
        | some rest => if statusLineEnd rest then some .CHAT_NO else none
        | none => none

/-- The `STATUS` regex applied to the whole (trimmed) text: the first anchor
position at which the line pattern matches. -/
def statusSearch (s : List Char) : Option HeartbeatStatus :=
  (lineStarts s).findSome? tryStatus

/-- One attempt of the `^\s*LABEL:` part of the `REASON`/`CONTENT` regexes at
an anchor position; `some rest` gives the remainder of the whole text after
the label. -/
def tryLabel (label : List Char) (s : List Char) : Option (List Char) :=
  ciPrefix label (s.dropWhile jsWs)

/-- The captured `CONTENT` of `/^\s*CONTENT:\s*(.+)/ims`, already trimmed as
the source does: everything after the first `CONTENT:` label to the end of
the text. An all-whitespace or absent remainder yields `[]`, matching both a
failed match and a whitespace-only capture trimmed to the empty string. -/
def contentExtract (t : List Char) : List Char :=
  match (lineStarts t).findSome? (tryLabel ("CONTENT:".toList)) with
  | none => []
  | some rest => jsTrimL rest

/-- The captured `REASON` of
`/^\s*REASON:\s*(.+?)(?=\n\s*(?:STATUS|CONTENT):|\s*$)/ims`, already trimmed:
the lazy capture stops at the first line end after its first
non-whitespace character, so the value is the first non-whitespace-starting
line segment after the label. -/
def reasonExtract (t : List Char) : List Char :=
  match (lineStarts t).findSome? (tryLabel ("REASON:".toList)) with
  | none => []
  | some rest => jsTrimL ((rest.dropWhile jsWs).takeWhile (fun c => c ≠ '\n'))

/-- heartbeat.ts `parseHeartbeatResponse`: empty (after trim) replies are an
implicit `HEARTBEAT_OK`; a reply with no recognizable `STATUS` line is
fail-open `CHAT_YES` carrying the whole trimmed reply, flagged `unparsed`;
otherwise the three fields are extracted by the modelled regexes. -/
def parseHeartbeatResponse (raw : String) : ParsedHeartbeatResponse :=
  if (jsTrimL raw.toList).isEmpty then
    { status := .HEARTBEAT_OK, reason := "empty response", content := "", unparsed := false }
  else
    match statusSearch (jsTrimL raw.toList) with
    | none =>
      { status := .CHAT_YES, reason := "unparsed response",
        content := String.mk (jsTrimL raw.toList), unparsed := true }
    | some st =>
      { status := st, reason := String.mk (reasonExtract (jsTrimL raw.toList)),
        content := String.mk (contentExtract (jsTrimL raw.toList)), unparsed := false }

-- Sanity examples (concrete behavior of the parser).
example :
    parseHeartbeatResponse "STATUS: HEARTBEAT_OK\nREASON: All good." =
      { status := .HEARTBEAT_OK, reason := "All good.", content := "", unparsed := false } := by
  decide

example :
    parseHeartbeatResponse "no structure here" =
      { status := .CHAT_YES, reason := "unparsed response", content := "no structure here",
        unparsed := true } := by
  decide

example :
    parseHeartbeatResponse "status: chat_yes\nCONTENT: BTC dropped" =
      { status := .CHAT_YES, reason := "", content := "BTC dropped", unparsed := false } := by
  decide

-- ==================== Event Log ====================

/-- event-log.ts `EventLogEntry`. The payload is opaque to the log; it is
modelled as a `String`. -/
structure EventLogEntry where
  seq : Nat
  ts : Int
  type : String
  payload : String
deriving DecidableEq, BEq, Repr

/-- The durable JSONL file, line by line: `some e` is a well-formed line
holding entry `e`; `none` is a blank or malformed line (skipped by every
reader). JSON encoding itself is not modelled. -/
abbrev LogFile := List (Option EventLogEntry)

/-- The in-process state of one event log instance: the sequence counter,
the durable file and the bounded in-memory buffer. Subscriber sets are not
modelled (no claim is about fan-out). -/
structure EventLog where
  seq : Nat
  file : LogFile
  buffer : List EventLogEntry
  bufferSize : Nat
deriving DecidableEq, Repr

/-- event-log.ts `recoverState`: parse all well-formed lines, return the last
entry's `seq` (0 when there is none) and the tail of the parsed entries,
`entries.slice(-bufferSize)` — which is the whole list when
`bufferSize = 0`, since `slice(-0)` is `slice(0)`. -/
def EventLog.recoverState (file : LogFile) (bufferSize : Nat) :
    Nat × List EventLogEntry :=
  let entries := file.filterMap id
  match entries with
  | [] => (0, [])
  | _ =>
    (((entries.getLast?).map EventLogEntry.seq).getD 0,
     if bufferSize = 0 then entries else entries.drop (entries.length - bufferSize))

/-- event-log.ts `createEventLog` on an existing (possibly empty) durable
file: recover the sequence counter and buffer. -/
def EventLog.create (file : LogFile) (bufferSize : Nat) : EventLog :=
  let r := EventLog.recoverState file bufferSize
  { seq := r.1, file := file, buffer := r.2, bufferSize := bufferSize }

/-- event-log.ts `append` with a successful durable write: assign the next
sequence number, write the line, push to the ring buffer truncating to the
last `bufferSize` entries, and return the entry. -/
def EventLog.append (st : EventLog) (type payload : String) (ts : Int) :
    EventLogEntry × EventLog :=
  let entry : EventLogEntry := { seq := st.seq + 1, ts := ts, type := type, payload := payload }
  let b := st.buffer ++ [entry]
  let b := if st.bufferSize < b.length then b.drop (b.length - st.bufferSize) else b
  (entry, { st with seq := st.seq + 1, file := st.file ++ [some entry], buffer := b })

/-- Appending a list of `(type, payload, ts)` events in order; returns the
entries in append order alongside the final state. -/
def EventLog.appendMany (st : EventLog) :
    List (String × String × Int) → List EventLogEntry × EventLog
  | [] => ([], st)
  | x :: xs =>
    let r := st.append x.1 x.2.1 x.2.2
    let rest := r.2.appendMany xs
    (r.1 :: rest.1, rest.2)

/-- event-log.ts `lastSeq`. -/
def EventLog.lastSeq (st : EventLog) : Nat := st.seq

/-- event-log.ts `close`: clears the buffer (and the unmodelled subscriber
sets); the durable file is untouched. -/
def EventLog.close (st : EventLog) : EventLog := { st with buffer := [] }

/-- event-log.ts `recent`: filter the in-memory buffer by `seq > afterSeq`
and the optional type, stopping once `limit` results are collected (the
source's early `break` makes the loop equal to filter-then-take). -/
def EventLog.recent (st : EventLog) (afterSeq : Nat) (filterType : Option String)
    (limit : Option Nat) : List EventLogEntry :=
  let fs := st.buffer.filter (fun e =>
    afterSeq < e.seq &&
    (match filterType with
     | none => true
     | some t => e.type == t))
  match limit with
  | none => fs
  | some n => fs.take n

-- ==================== Active hours ====================

/-- heartbeat.ts `HeartbeatConfig.activeHours` (the source field `end` is
called `stop` here because `end` is a Lean keyword). -/
structure ActiveHours where
  start : String
  stop : String
  timezone : String
deriving DecidableEq, Repr

/-- heartbeat.ts `parseHHMM`: `/^(\d{1,2}):(\d{2})$/` with `h ≤ 23` and
`min ≤ 59`, returning minutes since midnight. -/
def parseHHMM (s : String) : Option Nat :=
  let check := fun (h min : Nat) =>
    if 23 < h || 59 < min then none else some (h * 60 + min)
  match s.toList with
  | [h1, c, m1, m2] =>
    if h1.isDigit && c = ':' && m1.isDigit && m2.isDigit then
      check (h1.toNat - ('0').toNat)
        (10 * (m1.toNat - ('0').toNat) + (m2.toNat - ('0').toNat))
    else none
  | [h1, h2, c, m1, m2] =>
    if h1.isDigit && h2.isDigit && c = ':' && m1.isDigit && m2.isDigit then
      check (10 * (h1.toNat - ('0').toNat) + (h2.toNat - ('0').toNat))
        (10 * (m1.toNat - ('0').toNat) + (m2.toNat - ('0').toNat))
    else none
  | _ => none

/-- heartbeat.ts `isWithinActiveHours`. The wall-clock conversion
`currentMinutesInTimezone` wraps `Intl`/host-local time; it is passed in as
`minutesInTz : String → Int → Nat` (timezone name and epoch ms to minutes
since local midnight), since that library call is outside the model. -/
def isWithinActiveHours (minutesInTz : String → Int → Nat)
    (activeHours : Option ActiveHours) (nowMs : Int) : Bool :=
  match activeHours with
  | none => true
  | some ah =>
    match parseHHMM ah.start, parseHHMM ah.stop with
    | some startMinutes, some endMinutes =>
      let nowMinutes := minutesInTz ah.timezone nowMs
      if startMinutes ≤ endMinutes then
        startMinutes ≤ nowMinutes && nowMinutes < endMinutes
      else
        startMinutes ≤ nowMinutes || nowMinutes < endMinutes
    | _, _ => true

-- ==================== Heartbeat dedup ====================

/-- heartbeat.ts `HeartbeatDedup`'s fields. -/
structure HeartbeatDedup where
  lastText : Option String
  lastSentAt : Int
  windowMs : Int
deriving DecidableEq, Repr

/-- heartbeat.ts `HeartbeatDedup.isDuplicate`. -/
def HeartbeatDedup.isDuplicate (d : HeartbeatDedup) (text : String) (nowMs : Int) : Bool :=
  match d.lastText with
  | none => false
  | some lt => if text == lt then decide (nowMs - d.lastSentAt < d.windowMs) else false

/-- heartbeat.ts `HeartbeatDedup.record`. -/
def HeartbeatDedup.record (d : HeartbeatDedup) (text : String) (nowMs : Int) :
    HeartbeatDedup :=
  { d with lastText := some text, lastSentAt := nowMs }

-- ==================== Heartbeat fire handler ====================

/-- heartbeat.ts `HEARTBEAT_JOB_NAME`. -/
def HEARTBEAT_JOB_NAME : String := "__heartbeat__"

/-- cron engine `CronFirePayload`, as carried by a `cron.fire` event. -/
structure CronFirePayload where
  jobId : String
  jobName : String
  payload : String
deriving DecidableEq, Repr

/-- The heartbeat listener's mutable state: the in-progress guard and the
dedup record. -/
structure HBState where
  processing : Bool
  dedup : HeartbeatDedup
deriving DecidableEq, Repr

/-- The events the heartbeat handler appends (`heartbeat.skip`,
`heartbeat.done`, `heartbeat.error`); payload fields not examined by any
claim (durations, parsed reasons on skips) are omitted. -/
inductive HBEvent where
  | skip (reason : String)
  | done (reply : String) (reason : String) (delivered : Bool)
  | failure (msg : String)
deriving DecidableEq, BEq, Repr

/-- Everything one heartbeat fire invocation does besides mutating its own
state: whether the engine was called, the text of the attempted delivery (if
any), whether delivery succeeded, and the appended events in order. -/
structure HBOutcome where
  engineCalled : Bool
  deliveryAttempt : Option String
  delivered : Bool
  events : List HBEvent
deriving DecidableEq, Repr

/-- The outcome of an invocation that short-circuits before its pipeline. -/
def HBOutcome.noop : HBOutcome :=
  { engineCalled := false, deliveryAttempt := none, delivered := false, events := [] }

/-- heartbeat.ts `handleFire`, one complete invocation. Inputs stand for the
asynchronous collaborators: `engineResult` for `engine.askWithSession`
(`Except.error` = the call threw), `target` for `resolveDeliveryTarget()`
(`none` = no channel; `some b` = `deliver` succeeds iff `b`). The handler
ignores events of other jobs, drops fires arriving while `processing`, and
otherwise runs the guard → engine → parse → dedup → deliver → done pipeline;
`processing` is reset by the `finally`, so a completed invocation ends with
`processing = false`. -/
def Heartbeat.handleFire (activeHours : Option ActiveHours)
    (minutesInTz : String → Int → Nat) (nowMs : Int)
    (engineResult : Except String String) (target : Option Bool)
    (st : HBState) (p : CronFirePayload) : HBState × HBOutcome :=
  if p.jobName ≠ HEARTBEAT_JOB_NAME then (st, HBOutcome.noop)
  else if st.processing then (st, HBOutcome.noop)
  else
    let stDone := fun (d : HeartbeatDedup) => ({ processing := false, dedup := d } : HBState)
    if ¬ isWithinActiveHours minutesInTz activeHours nowMs then
      (stDone st.dedup,
       { engineCalled := false, deliveryAttempt := none, delivered := false,
         events := [.skip "outside-active-hours"] })
    else
      match engineResult with
      | .error e =>
        (stDone st.dedup,
         { engineCalled := true, deliveryAttempt := none, delivered := false,
           events := [.failure e] })
      | .ok replyText =>
        let parsed := parseHeartbeatResponse replyText
        if parsed.status = .HEARTBEAT_OK then
          (stDone st.dedup,
           { engineCalled := true, deliveryAttempt := none, delivered := false,
             events := [.skip "ack"] })
        else if parsed.status = .CHAT_NO then
          (stDone st.dedup,
           { engineCalled := true, deliveryAttempt := none, delivered := false,
             events := [.skip "chat-no"] })
        else
          let text := if parsed.content = "" then replyText else parsed.content
          if jsTrimL text.toList = [] then
            (stDone st.dedup,
             { engineCalled := true, deliveryAttempt := none, delivered := false,
               events := [.skip "empty"] })
          else if st.dedup.isDuplicate text nowMs then
            (stDone st.dedup,
             { engineCalled := true, deliveryAttempt := none, delivered := false,
               events := [.skip "duplicate"] })
          else
            match target with
            | none =>
              (stDone st.dedup,
               { engineCalled := true, deliveryAttempt := none, delivered := false,
                 events := [.done text parsed.reason false] })
            | some true =>
              (stDone (st.dedup.record text nowMs),
               { engineCalled := true, deliveryAttempt := some text, delivered := true,
                 events := [.done text parsed.reason true] })
            | some false =>
              (stDone st.dedup,
               { engineCalled := true, deliveryAttempt := some text, delivered := false,
                 events := [.done text parsed.reason false] })

-- ==================== Generic cron listener fire handler ====================

/-- The events the generic cron listener appends (`cron.done`, `cron.error`). -/
inductive CLEvent where
  | done (jobId jobName reply : String)
  | failure (jobId jobName err : String)
deriving DecidableEq, Repr

/-- Everything one generic-listener fire invocation does besides mutating its
`processing` flag. -/
structure CLOutcome where
  engineCalled : Bool
  deliveryAttempt : Option String
  events : List CLEvent
deriving DecidableEq, Repr

/-- The outcome of an invocation that short-circuits at a guard. -/
def CLOutcome.noop : CLOutcome :=
  { engineCalled := false, deliveryAttempt := none, events := [] }

/-- listener.ts `handleFire`, one complete invocation. Heartbeat-named fires
are left to the heartbeat listener; fires arriving while `processing` are
dropped; otherwise the engine is asked, the reply delivered best-effort
(a failed delivery is swallowed), and a `cron.done` or `cron.error` event is
appended. The returned `Bool` is the final `processing` flag. -/
def CronListener.handleFire (engineResult : Except String String)
    (target : Option Bool) (processing : Bool) (p : CronFirePayload) :
    Bool × CLOutcome :=
  if p.jobName = HEARTBEAT_JOB_NAME then (processing, CLOutcome.noop)
  else if processing then (processing, CLOutcome.noop)
  else
    match engineResult with
    | .error e =>
      (false, { engineCalled := true, deliveryAttempt := none,
                events := [.failure p.jobId p.jobName e] })
    | .ok text =>
      match target with
      | none =>
        (false, { engineCalled := true, deliveryAttempt := none,
                  events := [.done p.jobId p.jobName text] })
      | some _ =>
        (false, { engineCalled := true, deliveryAttempt := some text,
                  events := [.done p.jobId p.jobName text] })

-- ==================== Calendar model (for Date) ====================

/-- Proleptic Gregorian leap-year rule. -/
def isLeapYear (y : Nat) : Bool :=
  (y % 4 = 0 && y % 100 ≠ 0) || y % 400 = 0

/-- Days in year `y`. -/
def yearLen (y : Nat) : Nat := if isLeapYear y then 366 else 365

/-- Days in month `m` (1–12) of year `y`; 0 for an out-of-range month. -/
def monthLen (y m : Nat) : Nat :=
  match m with
  | 1 => 31 | 2 => if isLeapYear y then 29 else 28 | 3 => 31 | 4 => 30
  | 5 => 31 | 6 => 30 | 7 => 31 | 8 => 31 | 9 => 30 | 10 => 31
  | 11 => 30 | 12 => 31 | _ => 0

/-- Days from 1970-01-01 to year `y`, month `m` (1–12), day `d` (1-based),
for `y ≥ 1970`. -/
def daysSinceEpoch (y m d : Nat) : Nat :=
  (List.range (y - 1970)).foldl (fun acc i => acc + yearLen (1970 + i)) 0 +
    (List.range (m - 1)).foldl (fun acc i => acc + monthLen y (i + 1)) 0 +
    (d - 1)

/-- Year and remaining day count from a day offset, scanning from 1970
(fuel-bounded; the fuel covers every date the model is used at). -/
def civilYearAux : Nat → Nat → Nat → Nat × Nat
  | 0, y, d => (y, d)
  | fuel + 1, y, d =>
    if d < yearLen y then (y, d) else civilYearAux fuel (y + 1) (d - yearLen y)

/-- Month and remaining day count within year `y` from a day-of-year. -/
def civilMonthAux : Nat → Nat → Nat → Nat → Nat × Nat
  | 0, _, m, d => (m, d)
  | fuel + 1, y, m, d =>
    if d < monthLen y m then (m, d) else civilMonthAux fuel y (m + 1) (d - monthLen y m)

/-- `(year, month 1–12, day 1–31)` of a day offset from 1970-01-01. Models
the wall-clock components of a JS `Date` with the host timezone taken as
UTC. -/
def civilFromDays (days : Nat) : Nat × Nat × Nat :=
  let yd := civilYearAux 5000 1970 days
  let md := civilMonthAux 12 yd.1 1 yd.2
  (yd.1, md.1, md.2 + 1)

/-- Character-level digit test and value for the fixed-width ISO fields. -/
def digitVal (c : Char) : Nat := c.toNat - ('0').toNat

/-- Model of `new Date(s).getTime()` restricted to the ISO-8601 UTC forms
`YYYY-MM-DD` and `YYYY-MM-DDTHH:MM:SSZ` with in-range components and
`year ≥ 1970`; every other input is modelled as `NaN` (`none`). This is the
subset of JS date parsing the schedule strings of this system use. -/
def parseIsoUtc (s : String) : Option Int :=
  let build := fun (y mo d h mi sec : Nat) =>
    if y < 1970 || mo < 1 || 12 < mo || d < 1 || monthLen y mo < d
        || 23 < h || 59 < mi || 59 < sec then
      none
    else
      some ((((((daysSinceEpoch y mo d) * 24 + h) * 60 + mi) * 60 + sec) * 1000 : Nat) : Int)
  match s.toList with
  | [y1, y2, y3, y4, '-', a1, a2, '-', b1, b2] =>
    if [y1, y2, y3, y4, a1, a2, b1, b2].all Char.isDigit then
      build (1000 * digitVal y1 + 100 * digitVal y2 + 10 * digitVal y3 + digitVal y4)
        (10 * digitVal a1 + digitVal a2) (10 * digitVal b1 + digitVal b2) 0 0 0
    else none
  | [y1, y2, y3, y4, '-', a1, a2, '-', b1, b2, 'T',
     h1, h2, ':', i1, i2, ':', s1, s2, 'Z'] =>
    if [y1, y2, y3, y4, a1, a2, b1, b2, h1, h2, i1, i2, s1, s2].all Char.isDigit then
      build (1000 * digitVal y1 + 100 * digitVal y2 + 10 * digitVal y3 + digitVal y4)
        (10 * digitVal a1 + digitVal a2) (10 * digitVal b1 + digitVal b2)
        (10 * digitVal h1 + digitVal h2) (10 * digitVal i1 + digitVal i2)
        (10 * digitVal s1 + digitVal s2)
    else none
  | _ => none

-- ==================== Cron engine: schedules ====================

/-- engine.ts `CronSchedule` (the `at` constructor is `atTime` because `at`
is a Lean keyword; its payload is the ISO timestamp string). -/
inductive CronSchedule where
  | atTime (iso : String)
  | every (every : String)
  | cron (cron : String)
deriving DecidableEq, Repr

/-- engine.ts job `lastStatus` values. -/
inductive LastStatus where
  | ok
  | error
deriving DecidableEq, Repr

/-- engine.ts `CronJobState`. -/
structure CronJobState where
  nextRunAtMs : Option Int
  lastRunAtMs : Option Int
  lastStatus : Option LastStatus
  consecutiveErrors : Nat
deriving DecidableEq, Repr

/-- engine.ts `CronJob`. -/
structure CronJob where
  id : String
  name : String
  enabled : Bool
  schedule : CronSchedule
  payload : String
  state : CronJobState
  createdAt : Int
deriving DecidableEq, Repr

/-- engine.ts `CronJobCreate`. -/
structure CronJobCreate where
  name : String
  schedule : CronSchedule
  payload : String
  enabled : Option Bool
deriving DecidableEq, Repr

/-- engine.ts `CronJobPatch`. -/
structure CronJobPatch where
  name : Option String
  schedule : Option CronSchedule
  payload : Option String
  enabled : Option Bool
deriving DecidableEq, Repr

/-- One component of the duration regex
`/^(?:(\d+)h)?(?:(\d+)m)?(?:(\d+)s)?$/`: a digit run followed by `suffix`
consumes and yields its value, anything else leaves the input unconsumed
with value 0 (an absent optional group). -/
def parseDurationComp (suffix : Char) (l : List Char) : Nat × List Char :=
  let ds := l.takeWhile Char.isDigit
  let rest := l.dropWhile Char.isDigit
  match ds, rest with
  | [], _ => (0, l)
  | _ :: _, c :: r => if c = suffix then (digitsToNat ds, r) else (0, l)
  | _ :: _, [] => (0, l)

/-- engine.ts `parseDuration`: hours/minutes/seconds components in order on
the trimmed string; no match, leftover input, or an all-zero total is
unparseable. -/
def Cron.parseDuration (s : String) : Option Nat :=
  let l := jsTrimL s.toList
  let hc := parseDurationComp 'h' l
  let mc := parseDurationComp 'm' hc.2
  let sc := parseDurationComp 's' mc.2
  if ¬ sc.2.isEmpty then none
  else if hc.1 = 0 && mc.1 = 0 && sc.1 = 0 then none
  else some ((hc.1 * 3600 + mc.1 * 60 + sc.1) * 1000)

/-- Model of JS `Number()` for the strings cron fields contain: the empty
(or all-whitespace) string is 0, a digit run is its value, and everything
else is modelled as `NaN` (fractional and exotic numeric forms are not
modelled — the cron syntax never produces a usable one). -/
def jsNumber (l : List Char) : Option Nat :=
  let t := jsTrimL l
  if t.isEmpty then some 0
  else if t.all Char.isDigit then some (digitsToNat t) else none

/-- A nonempty digit run (`\d+`). -/
def isDigitRun (l : List Char) : Bool := ¬ l.isEmpty && l.all Char.isDigit

/-- `\d+-\d+` and its two values. -/
def rangeShape (a : List Char) : Option (Nat × Nat) :=
  match splitOnChar '-' a with
  | [x, y] => if isDigitRun x && isDigitRun y then some (digitsToNat x, digitsToNat y) else none
  | _ => none

/-- `(\*|\d+-\d+)/(\d+)`: the optional range (none = `*`) and the step. -/
def stepShape (part : List Char) : Option (Option (Nat × Nat) × Nat) :=
  match splitOnChar '/' part with
  | [a, b] =>
    if isDigitRun b then
      if a = ['*'] then some (none, digitsToNat b)
      else
        match rangeShape a with
        | some r => some (some r, digitsToNat b)
        | none => none
    else none
  | _ => none

/-- `for (let i = start; i <= end; i += step)`. -/
def stepVals (start stop step : Nat) : List Nat :=
  ((List.range (stop + 1 - start)).filter (fun i => i % step = 0)).map (start + ·)

/-- One comma-separated part of a cron field (engine.ts `parseFieldValues`
loop body): step syntax, then a plain range, then `*` (expanded 0–59 for
every field, as in the source), then a bare number via `Number`. -/
def parseCronPart (part : List Char) : Option (List Nat) :=
  match stepShape part with
  | some r =>
    if r.2 = 0 then none
    else
      match r.1 with
      | some se => some (stepVals se.1 se.2 r.2)
      | none => some (stepVals 0 59 r.2)
  | none =>
    match rangeShape part with
    | some se => some (List.range' se.1 (se.2 + 1 - se.1))
    | none =>
      if part = ['*'] then some (List.range 60)
      else
        match jsNumber part with
        | none => none
        | some n => some [n]

/-- engine.ts `parseFieldValues`: every comma part must parse, and the
combined value set must be nonempty. -/
def parseFieldValues (field : List Char) : Option (List Nat) :=
  match (splitOnChar ',' field).mapM parseCronPart with
  | none => none
  | some ls =>
    let r := ls.flatten
    if r.isEmpty then none else some r

/-- The wall-clock member test of one scan step of `nextCronFire`
(month/day-of-month/day-of-week/hour/minute of the cursor, host timezone
modelled as UTC; day 0 of the epoch was a Thursday, `getDay() = 4`). -/
def cronMatchAt (minutes hours doms months dows : List Nat) (cursorMin : Nat) : Bool :=
  let minute := cursorMin % 60
  let totalHours := cursorMin / 60
  let hour := totalHours % 24
  let days := totalHours / 24
  let dow := (days + 4) % 7
  let c := civilFromDays days
  months.contains c.2.1 && doms.contains c.2.2 && dows.contains dow &&
    hours.contains hour && minutes.contains minute

/-- The minute-by-minute scan of `nextCronFire`: while the cursor is below
the limit, return the first matching minute. The fuel bounds the loop; it
exceeds the number of minutes in the 366-day window, so the scan always ends
on the `while` condition, never on exhausted fuel. -/
def cronScan (minutes hours doms months dows : List Nat) :
    Nat → Int → Int → Option Int
  | 0, _, _ => none
  | fuel + 1, cursorMin, limitMs =>
    if cursorMin * 60000 < limitMs then
      if cronMatchAt minutes hours doms months dows cursorMin.toNat then
        some (cursorMin * 60000)
      else
        cronScan minutes hours doms months dows fuel (cursorMin + 1) limitMs
    else none

/-- Fuel for `cronScan`: two more than the minutes in the scan window. -/
def cronScanFuel : Nat := 366 * 24 * 60 + 2

/-- The parsing stage of engine.ts `nextCronFire`: split the trimmed
expression on whitespace into exactly 5 fields and expand each to its value
set (`minutes, hours, doms, months, dows`); `none` when the expression is
malformed. -/
def cronFields (expr : String) :
    Option (List Nat × List Nat × List Nat × List Nat × List Nat) :=
  match wordsOf (jsTrimL expr.toList) with
  | [p1, p2, p3, p4, p5] =>
    match parseFieldValues p1, parseFieldValues p2, parseFieldValues p3,
        parseFieldValues p4, parseFieldValues p5 with
    | some minutes, some hours, some doms, some months, some dows =>
      some (minutes, hours, doms, months, dows)
    | _, _, _, _, _ => none
  | _ => none

/-- engine.ts `nextCronFire`: parse the 5 fields, then scan forward minute
by minute from one minute after `afterMs`, bounded to 366 days. -/
def nextCronFire (expr : String) (afterMs : Int) : Option Int :=
  match cronFields expr with
  | none => none
  | some f =>
    cronScan f.1 f.2.1 f.2.2.1 f.2.2.2.1 f.2.2.2.2 cronScanFuel
      (afterMs.ediv 60000 + 1) (afterMs + 366 * 24 * 60 * 60 * 1000)

/-- engine.ts `computeNextRun`: one-shot timestamps must parse and lie in
the future; `every` durations must parse (and are nonzero by construction,
mirroring the source's truthiness check); cron expressions go through
`nextCronFire`. -/
def Cron.computeNextRun (schedule : CronSchedule) (afterMs : Int) : Option Int :=
  match schedule with
  | .atTime a =>
    match parseIsoUtc a with
    | none => none
    | some t => if afterMs < t then some t else none
  | .every e =>
    match Cron.parseDuration e with
    | none => none
    | some ms => if ms = 0 then none else some (afterMs + (ms : Int))
  | .cron c => nextCronFire c afterMs

-- ==================== Cron engine: firing and CRUD ====================

/-- engine.ts `ERROR_BACKOFF_MS`. -/
def ERROR_BACKOFF_MS : List Nat := [30000, 60000, 300000, 900000, 3600000]

/-- engine.ts `errorBackoffMs`: the table entry at
`min(consecutiveErrors - 1, 4)`, clamped below at index 0 (Nat subtraction
saturates exactly as the source's `Math.max(0, idx)` does). -/
def Cron.errorBackoffMs (consecutiveErrors : Nat) : Nat :=
  ERROR_BACKOFF_MS.getD (min (consecutiveErrors - 1) (ERROR_BACKOFF_MS.length - 1)) 0

/-- Whether a schedule is the one-shot kind (`kind === 'at'`). -/
def Cron.isOneShot (s : CronSchedule) : Bool :=
  match s with
  | .atTime _ => true
  | _ => false

/-- engine.ts `fireJob`: record the run time; on a successful `cron.fire`
append reset the error state, otherwise record the error; then compute the
next run — one-shots disable themselves, a job left with errors backs off,
and otherwise the normal schedule resolution applies. `appendOk` is the
outcome of the awaited `eventLog.append`. -/
def Cron.fireJob (job : CronJob) (currentMs : Int) (appendOk : Bool) : CronJob :=
  let st0 := { job.state with lastRunAtMs := some currentMs }
  let st1 :=
    if appendOk then { st0 with lastStatus := some .ok, consecutiveErrors := 0 }
    else { st0 with lastStatus := some .error, consecutiveErrors := st0.consecutiveErrors + 1 }
  if Cron.isOneShot job.schedule then
    { job with enabled := false, state := { st1 with nextRunAtMs := none } }
  else if 0 < st1.consecutiveErrors then
    { job with state :=
        { st1 with nextRunAtMs := some (currentMs + (Cron.errorBackoffMs st1.consecutiveErrors : Int)) } }
  else
    { job with state := { st1 with nextRunAtMs := Cron.computeNextRun job.schedule currentMs } }

/-- engine.ts `add`: build the job (enabled defaults to true, next run
resolved from now); the generated id is an input. -/
def Cron.add (create : CronJobCreate) (id : String) (currentMs : Int) : CronJob :=
  { id := id
    name := create.name
    enabled := create.enabled.getD true
    schedule := create.schedule
    payload := create.payload
    state :=
      { nextRunAtMs := Cron.computeNextRun create.schedule currentMs
        lastRunAtMs := none
        lastStatus := none
        consecutiveErrors := 0 }
    createdAt := currentMs }

/-- The mutation `update` applies to the found job: set the patched fields;
a schedule patch recomputes the next run from now and clears the error
count. -/
def Cron.applyPatch (job : CronJob) (patch : CronJobPatch) (nowMs : Int) : CronJob :=
  let j1 := match patch.name with
    | some n => { job with name := n }
    | none => job
  let j2 := match patch.payload with
    | some p => { j1 with payload := p }
    | none => j1
  let j3 := match patch.enabled with
    | some e => { j2 with enabled := e }
    | none => j2
  match patch.schedule with
  | some sch =>
    { j3 with
      schedule := sch
      state := { j3.state with
        nextRunAtMs := Cron.computeNextRun sch nowMs
        consecutiveErrors := 0 } }
  | none => j3

/-- Replace the first job with the given id (the source mutates the object
`find` returned). -/
def Cron.replaceFirst (jobs : List CronJob) (id : String) (f : CronJob → CronJob) :
    List CronJob :=
  match jobs with
  | [] => []
  | j :: rest => if j.id == id then f j :: rest else j :: Cron.replaceFirst rest id f

/-- Remove the first job with the given id (`findIndex` + `splice(idx, 1)`). -/
def Cron.removeFirst (jobs : List CronJob) (id : String) : List CronJob :=
  match jobs with
  | [] => []
  | j :: rest => if j.id == id then rest else j :: Cron.removeFirst rest id

/-- engine.ts `update` over the in-memory job list: an unknown id throws
`cron job not found: <id>` before touching anything; otherwise the found job
is patched in place. The pair carries the thrown-or-ok outcome and the job
list after the call. -/
def Cron.update (jobs : List CronJob) (id : String) (patch : CronJobPatch)
    (nowMs : Int) : Except String Unit × List CronJob :=
  match jobs.find? (fun j => j.id == id) with
  | none => (.error ("cron job not found: " ++ id), jobs)
  | some _ => (.ok (), Cron.replaceFirst jobs id (fun j => Cron.applyPatch j patch nowMs))

/-- engine.ts `remove`: an unknown id throws before touching anything. -/
def Cron.remove (jobs : List CronJob) (id : String) :
    Except String Unit × List CronJob :=
  match jobs.find? (fun j => j.id == id) with
  | none => (.error ("cron job not found: " ++ id), jobs)
  | some _ => (.ok (), Cron.removeFirst jobs id)

/-- engine.ts `runNow`: an unknown id throws before firing; otherwise the
job is fired immediately with the given append outcome. -/
def Cron.runNow (jobs : List CronJob) (id : String) (nowMs : Int) (appendOk : Bool) :
    Except String Unit × List CronJob :=
  match jobs.find? (fun j => j.id == id) with
  | none => (.error ("cron job not found: " ++ id), jobs)
  | some _ => (.ok (), Cron.replaceFirst jobs id (fun j => Cron.fireJob j nowMs appendOk))

/-- The per-job recomputation in engine.ts `start()`: an enabled job whose
next run is null or already past gets a fresh resolution from now, and a
one-shot resolved to null is disabled. -/
def Cron.startRecompute (job : CronJob) (currentMs : Int) : CronJob :=
  if ¬ job.enabled then job
  else
    let due := match job.state.nextRunAtMs with
      | none => true
      | some v => decide (v < currentMs)
    if due then
      let next := Cron.computeNextRun job.schedule currentMs
      let j := { job with state := { job.state with nextRunAtMs := next } }
      if Cron.isOneShot job.schedule && next.isNone then { j with enabled := false } else j
    else job

-- ==================== Concrete fixtures used by the claims ====================

/-- Bool test for a `heartbeat.skip` event with reason `empty`. -/
def isSkipEmpty : HBEvent → Bool
  | .skip r => r == "empty"
  | _ => false

/-- A single well-formed log line used as a fixture. -/
def cxEntry1 : EventLogEntry := { seq := 1, ts := 0, type := "a", payload := "" }

/-- Seven appends of a trivial event. -/
def sevenAppends : List (String × String × Int) :=
  [("e", "", 0), ("e", "", 0), ("e", "", 0), ("e", "", 0),
   ("e", "", 0), ("e", "", 0), ("e", "", 0)]

/-- The spec's reopen scenario: a fresh log with `bufferSize = 3`, seven
appends, `close()`, then construction over the same durable file. -/
def reopenedLog : EventLog :=
  EventLog.create (((EventLog.create [] 3).appendMany sevenAppends).2.close.file) 3

/-- A one-shot job creation whose timestamp is valid ISO but in the past. -/
def pastOneShotCreate : CronJobCreate :=
  { name := "past", schedule := .atTime "2020-01-01T00:00:00Z", payload := "p",
    enabled := none }

/-- A fresh dedup record (nothing delivered yet, 24h window). -/
def freshDedup : HeartbeatDedup :=
  { lastText := none, lastSentAt := 0, windowMs := 86400000 }

-- Sanity examples matching the spec's stated test vectors.
example : Cron.parseDuration "1h30m" = some 5400000 := by decide
example : Cron.parseDuration "" = none := by decide
example : Cron.parseDuration "abc" = none := by decide
example : parseIsoUtc "2020-01-01T00:00:00Z" = some 1577836800000 := by decide
example : parseFieldValues ("*/15".toList) = some [0, 15, 30, 45] := by decide
example : parseFieldValues ("1-3,7".toList) = some [1, 2, 3, 7] := by decide
example : parseFieldValues ("5-3".toList) = none := by decide

-- ==================== Helper lemmas ====================

theorem dropWhile_head?_not {p : Char → Bool} {l : List Char} {c : Char}
    (h : (l.dropWhile p).head? = some c) : p c = false := by
  induction l with
  | nil => simp [List.dropWhile] at h
  | cons a t ih =>
    by_cases hp : p a
    · exact ih (by simpa [List.dropWhile, hp] using h)
    · simp [List.dropWhile, hp] at h
      subst h
      simpa using hp

theorem dropWhile_eq_self_of_head? {p : Char → Bool} {l : List Char}
    (h : ∀ c, l.head? = some c → p c = false) : l.dropWhile p = l := by
  cases l with
  | nil => rfl
  | cons a t => simp [List.dropWhile, h a rfl]

theorem getLast?_dropWhile {p : Char → Bool} {l : List Char}
    (h : l.dropWhile p ≠ []) : (l.dropWhile p).getLast? = l.getLast? := by
  induction l with
  | nil => simp [List.dropWhile] at h
  | cons a t ih =>
    by_cases hp : p a
    · have ht : t ≠ [] := by
        intro he
        subst he
        simp [List.dropWhile, hp] at h
      have := ih (by simpa [List.dropWhile, hp] using h)
      rw [List.dropWhile] at *
      simp only [hp] at *
      cases t with
      | nil => exact absurd rfl ht
      | cons b u => rw [this, List.getLast?_cons_cons]
    · simp [List.dropWhile, hp]

theorem jsTrimL_head?_not {l : List Char} {c : Char}
    (h : (jsTrimL l).head? = some c) : jsWs c = false := by
  unfold jsTrimL at h
  rw [List.head?_reverse] at h
  have hne : (l.dropWhile jsWs).reverse.dropWhile jsWs ≠ [] := by
    intro he
    rw [he] at h
    simp at h
  rw [getLast?_dropWhile hne, List.getLast?_reverse] at h
  exact dropWhile_head?_not h

theorem jsTrimL_getLast?_not {l : List Char} {c : Char}
    (h : (jsTrimL l).getLast? = some c) : jsWs c = false := by
  unfold jsTrimL at h
  rw [List.getLast?_reverse] at h
  exact dropWhile_head?_not h

theorem jsTrimL_idem (l : List Char) : jsTrimL (jsTrimL l) = jsTrimL l := by
  have h1 : (jsTrimL l).dropWhile jsWs = jsTrimL l :=
    dropWhile_eq_self_of_head? (fun c hc => jsTrimL_head?_not hc)
  have h2 : (jsTrimL l).reverse.dropWhile jsWs = (jsTrimL l).reverse :=
    dropWhile_eq_self_of_head? (fun c hc => by
      rw [List.head?_reverse] at hc
      exact jsTrimL_getLast?_not hc)
  show ((((jsTrimL l).dropWhile jsWs).reverse).dropWhile jsWs).reverse = jsTrimL l
  rw [h1, h2, List.reverse_reverse]

theorem mk_toList (l : List Char) : (String.mk l).toList = l := rfl

theorem mk_eq_empty_iff (l : List Char) : String.mk l = "" ↔ l = [] := by
  constructor
  · intro h
    have := congrArg String.toList h
    simpa [mk_toList] using this
  · intro h
    subst h
    rfl

/-- A parse that comes back `CHAT_YES` never leaves the handler's effective
text (the parsed content, or the whole raw reply when the content is empty)
blank: blank replies parse as `HEARTBEAT_OK`, and a nonempty content is
already trimmed. -/
theorem parse_chatYes_text_not_blank (raw : String)
    (h : (parseHeartbeatResponse raw).status = .CHAT_YES) :
    jsTrimL (if (parseHeartbeatResponse raw).content = "" then raw
             else (parseHeartbeatResponse raw).content).toList ≠ [] := by
  by_cases ht : (jsTrimL raw.toList).isEmpty
  · rw [parseHeartbeatResponse, if_pos ht] at h
    simp at h
  · have htne : jsTrimL raw.toList ≠ [] := by
      simpa [List.isEmpty_iff] using ht
    cases hs : statusSearch (jsTrimL raw.toList) with
    | none =>
      rw [parseHeartbeatResponse, if_neg ht, hs]
      have hne : String.mk (jsTrimL raw.toList) ≠ "" := by
        intro he
        exact htne ((mk_eq_empty_iff _).mp he)
      rw [if_neg hne, mk_toList, jsTrimL_idem]
      exact htne
    | some st =>
      rw [parseHeartbeatResponse, if_neg ht, hs]
      by_cases hc : String.mk (contentExtract (jsTrimL raw.toList)) = ""
      · rw [if_pos hc]
        exact htne
      · rw [if_neg hc, mk_toList]
        have hcl : contentExtract (jsTrimL raw.toList) ≠ [] := by
          intro he
          exact hc ((mk_eq_empty_iff _).mpr he)
        unfold contentExtract at hcl ⊢
        cases hfs : (lineStarts (jsTrimL raw.toList)).findSome? (tryLabel ("CONTENT:".toList)) with
        | none =>
          rw [hfs] at hcl
          exact absurd rfl hcl
        | some rest =>
          rw [hfs] at hcl
          show jsTrimL (jsTrimL rest) ≠ []
          rw [jsTrimL_idem]
          exact hcl

/-- `parseDuration` never yields zero: an all-zero total is rejected. -/
theorem parseDuration_pos {s : String} {ms : Nat}
    (h : Cron.parseDuration s = some ms) : 0 < ms := by
  simp only [Cron.parseDuration] at h
  split at h
  · exact absurd h (by simp)
  · split at h
    · exact absurd h (by simp)
    · rename_i hz
      have hms : (((parseDurationComp 'h' (jsTrimL s.toList)).1 * 3600 +
          (parseDurationComp 'm' (parseDurationComp 'h' (jsTrimL s.toList)).2).1 * 60 +
          (parseDurationComp 's'
            (parseDurationComp 'm' (parseDurationComp 'h' (jsTrimL s.toList)).2).2).1) * 1000) = ms := by
        simpa using h
      simp only [Bool.and_eq_true, decide_eq_true_eq] at hz
      omega

/-- `appendMany` over any state: the returned entries carry the consecutive
sequence numbers starting right after the state's counter, the counter
advances by the number of appends, and the durable file grows by exactly
those entries in order. -/
theorem appendMany_spec (st : EventLog) (xs : List (String × String × Int)) :
    (st.appendMany xs).1.map EventLogEntry.seq = List.range' (st.seq + 1) xs.length
    ∧ (st.appendMany xs).2.seq = st.seq + xs.length
    ∧ (st.appendMany xs).2.file = st.file ++ (st.appendMany xs).1.map some := by
  induction xs generalizing st with
  | nil => simp [EventLog.appendMany]
  | cons x xs ih =>
    obtain ⟨ih1, ih2, ih3⟩ := ih (st.append x.1 x.2.1 x.2.2).2
    refine ⟨?_, ?_, ?_⟩
    · simp only [EventLog.appendMany, List.map_cons, List.length_cons, List.range'_succ]
      refine congrArg₂ _ ?_ ?_
      · rfl
      · simpa [EventLog.append] using ih1
    · simp only [EventLog.appendMany]
      simpa [EventLog.append, Nat.add_comm, Nat.add_assoc, Nat.add_left_comm] using ih2
    · simp only [EventLog.appendMany, List.map_cons]
      rw [ih3]
      simp [EventLog.append]

-- ==================== Claims ====================

/-- C1: on a fresh (empty) event log, every append returns an entry whose
`seq` is the previous `lastSeq()` plus one; appending N events yields
entries with `seq` exactly `1..N` in append order (both as returned and as
written to the durable file), and afterwards `lastSeq()` is N. -/
theorem c1_append_sequencing :
    (∀ (st : EventLog) (ty p : String) (ts : Int),
        (st.append ty p ts).1.seq = st.lastSeq + 1)
    ∧ (∀ (bufferSize : Nat) (xs : List (String × String × Int)),
        ((EventLog.create [] bufferSize).appendMany xs).1.map EventLogEntry.seq
            = List.range' 1 xs.length
        ∧ ((EventLog.create [] bufferSize).appendMany xs).2.lastSeq = xs.length
        ∧ ((EventLog.create [] bufferSize).appendMany xs).2.file
            = ((EventLog.create [] bufferSize).appendMany xs).1.map some) := by
  refine ⟨fun st ty p ts => rfl, fun bufferSize xs => ?_⟩
  obtain ⟨h1, h2, h3⟩ := appendMany_spec (EventLog.create [] bufferSize) xs
  have hseq : (EventLog.create [] bufferSize).seq = 0 := rfl
  refine ⟨by simpa [hseq] using h1, ?_, by simpa using h3⟩
  simpa [EventLog.lastSeq, hseq] using h2

/-- C2 counterexample: with `bufferSize = 0` the recovery loads the whole
parsed file into the buffer (JS `slice(-0)` is `slice(0)`), not the last
`bufferSize = 0` entries (which would be the empty list): on a one-line
file the recovered buffer has length 1. -/
theorem c2_recovery_counterexample :
    (EventLog.create [some cxEntry1] 0).buffer = [cxEntry1]
    ∧ (EventLog.create [some cxEntry1] 0).buffer.length = 1 := by
  exact ⟨by decide, by decide⟩

/-- C2 (amended to positive buffer sizes): constructing over any durable
file restores the sequence counter to the `seq` of the last well-formed
line (0 when there is none) and loads the last `bufferSize` well-formed
entries; and concretely, after 7 appends on a fresh `bufferSize = 3` log,
closing and reopening, `recent()` returns exactly the entries with seq
5, 6, 7, `lastSeq()` is 7, and the next append is assigned seq 8. -/
theorem c2_recovery_amended :
    (∀ (file : LogFile) (bufferSize : Nat), 0 < bufferSize →
        (EventLog.create file bufferSize).seq
            = (((file.filterMap id).getLast?).map EventLogEntry.seq).getD 0
        ∧ (EventLog.create file bufferSize).buffer
            = (file.filterMap id).drop ((file.filterMap id).length - bufferSize))
    ∧ ((reopenedLog.recent 0 none none).map EventLogEntry.seq = [5, 6, 7]
        ∧ reopenedLog.lastSeq = 7
        ∧ (reopenedLog.append "hb" "" 9).1.seq = 8) := by
  constructor
  · intro file bufferSize hpos
    have hbz : bufferSize ≠ 0 := Nat.pos_iff_ne_zero.mp hpos
    unfold EventLog.create EventLog.recoverState
    cases h : file.filterMap id with
    | nil => simp [h]
    | cons a l => simp [h, hbz]
  · exact ⟨by decide, by decide, by decide⟩

/-- C3: a `cron.fire` event reaching a listener whose previous invocation
is still in progress (`processing = true`) is dropped outright: the
heartbeat handler and the generic cron listener both return with the state
unchanged (nothing queued), no engine call, no delivery attempt and no
appended event. -/
theorem c3_busy_drop :
    ∀ (activeHours : Option ActiveHours) (minutesInTz : String → Int → Nat)
      (nowMs : Int) (engineResult engineResult2 : Except String String)
      (target target2 : Option Bool) (st : HBState) (processing : Bool)
      (p q : CronFirePayload),
      st.processing = true → processing = true →
      Heartbeat.handleFire activeHours minutesInTz nowMs engineResult target st p
          = (st, HBOutcome.noop)
      ∧ CronListener.handleFire engineResult2 target2 processing q
          = (processing, CLOutcome.noop) := by
  intro activeHours minutesInTz nowMs er er2 target target2 st processing p q h1 h2
  constructor
  · unfold Heartbeat.handleFire
    split
    · rfl
    · simp [h1]
  · unfold CronListener.handleFire
    split
    · rfl
    · simp [h2]

/-- C3 witness: a concrete busy drop for both listeners. -/
theorem c3_busy_drop_witness :
    Heartbeat.handleFire none (fun _ _ => 0) 0 (.ok "x") none
        { processing := true, dedup := freshDedup } ⟨"j", "__heartbeat__", "p"⟩
      = ({ processing := true, dedup := freshDedup }, HBOutcome.noop)
    ∧ CronListener.handleFire (.ok "x") none true ⟨"j", "n", "p"⟩
      = (true, CLOutcome.noop) :=
  c3_busy_drop none (fun _ _ => 0) 0 (.ok "x") (.ok "x") none none
    { processing := true, dedup := freshDedup } true
    ⟨"j", "__heartbeat__", "p"⟩ ⟨"j", "n", "p"⟩ rfl rfl

/-- C4: a fire that leaves a non-one-shot job with `consecutiveErrors > 0`
schedules its next run at the fire time plus the backoff table entry for
the error count — 30s, 60s, 5m, 15m, 1h, and 1h for every higher count —
and the backoff is non-decreasing in the error count. -/
theorem c4_error_backoff :
    (∀ (job : CronJob) (t : Int) (appendOk : Bool),
        Cron.isOneShot job.schedule = false →
        0 < (Cron.fireJob job t appendOk).state.consecutiveErrors →
        (Cron.fireJob job t appendOk).state.nextRunAtMs
          = some (t + (Cron.errorBackoffMs
              (Cron.fireJob job t appendOk).state.consecutiveErrors : Int)))
    ∧ Cron.errorBackoffMs 1 = 30000
    ∧ Cron.errorBackoffMs 2 = 60000
    ∧ Cron.errorBackoffMs 3 = 300000
    ∧ Cron.errorBackoffMs 4 = 900000
    ∧ (∀ k, 5 ≤ k → Cron.errorBackoffMs k = 3600000)
    ∧ (∀ k1 k2, k1 ≤ k2 → Cron.errorBackoffMs k1 ≤ Cron.errorBackoffMs k2) := by
  refine ⟨?_, by decide, by decide, by decide, by decide, ?_, ?_⟩
  · intro job t appendOk h1 h2
    cases appendOk with
    | true => simp [Cron.fireJob, h1] at h2
    | false => simp [Cron.fireJob, h1]
  · intro k hk
    have hmin : min (k - 1) (ERROR_BACKOFF_MS.length - 1) = 4 := by
      have : ERROR_BACKOFF_MS.length - 1 = 4 := rfl
      rw [this]
      omega
    rw [Cron.errorBackoffMs, hmin]
    rfl
  · intro k1 k2 h
    have hb : ∀ i, i ≤ 4 → ∀ j, j ≤ 4 → i ≤ j →
        ERROR_BACKOFF_MS.getD i 0 ≤ ERROR_BACKOFF_MS.getD j 0 := by decide
    have hlen : ERROR_BACKOFF_MS.length - 1 = 4 := rfl
    rw [Cron.errorBackoffMs, Cron.errorBackoffMs, hlen]
    exact hb _ (min_le_right _ _) _ (min_le_right _ _)
      (min_le_min (Nat.sub_le_sub_right h 1) le_rfl)

/-- C5 counterexample: a one-shot job added with a valid ISO timestamp that
is already past gets `nextRunAtMs = null` although it is neither a spent
one-shot (it never fired: `lastRunAtMs` and `lastStatus` are null) nor a
job with an unparseable schedule (the timestamp parses). -/
theorem c5_nextrun_null_counterexample :
    (Cron.add pastOneShotCreate "j1" 1700000000000).state.nextRunAtMs = none
    ∧ (Cron.add pastOneShotCreate "j1" 1700000000000).state.lastRunAtMs = none
    ∧ (Cron.add pastOneShotCreate "j1" 1700000000000).state.lastStatus = none
    ∧ parseIsoUtc "2020-01-01T00:00:00Z" = some 1577836800000 := by
  exact ⟨by decide, by decide, by decide, by decide⟩

/-- C5 (amended): across the operations that set it, `nextRunAtMs` is null
exactly when the job is a spent one-shot, a one-shot whose timestamp is not
in the future at resolution time, or a schedule that fails to resolve
(unparseable timestamp or duration, malformed cron, or a cron scan finding
no match); after a failed fire a non-one-shot job gets the backoff time
(never null) even if its schedule is unparseable. Conjuncts: the per-kind
characterization of `computeNextRun = null`, the state `add` creates, the
post-fire characterization (with spent-ness of fired one-shots), and the
schedule-patch recomputation of `update`. -/
theorem c5_nextrun_null_amended :
    (∀ (a : String) (t : Int),
        (Cron.computeNextRun (.atTime a) t = none
          ↔ parseIsoUtc a = none ∨ ∃ v, parseIsoUtc a = some v ∧ v ≤ t))
    ∧ (∀ (e : String) (t : Int),
        (Cron.computeNextRun (.every e) t = none ↔ Cron.parseDuration e = none))
    ∧ (∀ (c : String) (t : Int),
        (Cron.computeNextRun (.cron c) t = none
          ↔ cronFields c = none
            ∨ ∃ f, cronFields c = some f
                ∧ cronScan f.1 f.2.1 f.2.2.1 f.2.2.2.1 f.2.2.2.2 cronScanFuel
                    (t.ediv 60000 + 1) (t + 366 * 24 * 60 * 60 * 1000) = none))
    ∧ (∀ (create : CronJobCreate) (id : String) (t : Int),
        (Cron.add create id t).state.nextRunAtMs = Cron.computeNextRun create.schedule t
        ∧ (Cron.add create id t).state.lastRunAtMs = none
        ∧ (Cron.add create id t).state.lastStatus = none)
    ∧ (∀ (job : CronJob) (t : Int) (appendOk : Bool),
        ((Cron.fireJob job t appendOk).state.nextRunAtMs = none
          ↔ Cron.isOneShot job.schedule = true
            ∨ (appendOk = true ∧ Cron.computeNextRun job.schedule t = none)))
    ∧ (∀ (job : CronJob) (t : Int) (appendOk : Bool),
        Cron.isOneShot job.schedule = true →
        (Cron.fireJob job t appendOk).state.lastRunAtMs = some t
        ∧ (Cron.fireJob job t appendOk).enabled = false)
    ∧ (∀ (job : CronJob) (patch : CronJobPatch) (sch : CronSchedule) (t : Int),
        patch.schedule = some sch →
        (Cron.applyPatch job patch t).state.nextRunAtMs = Cron.computeNextRun sch t)
    ∧ (∀ (job : CronJob) (t : Int),
        job.enabled = true →
        (job.state.nextRunAtMs = none ∨ ∃ v, job.state.nextRunAtMs = some v ∧ v < t) →
        (Cron.startRecompute job t).state.nextRunAtMs
          = Cron.computeNextRun job.schedule t) := by
  refine ⟨?_, ?_, ?_, fun create id t => ⟨rfl, rfl, rfl⟩, ?_, ?_, ?_, ?_⟩
  · intro a t
    cases hp : parseIsoUtc a with
    | none => simp [Cron.computeNextRun, hp]
    | some v =>
      simp only [Cron.computeNextRun, hp]
      split
      · rename_i hlt
        simp only [reduceCtorEq, false_iff]
        push_neg
        refine ⟨by simp, fun w hw => ?_⟩
        rw [Option.some_inj] at hw
        omega
      · rename_i hlt
        simp only [true_iff]
        exact Or.inr ⟨v, rfl, by omega⟩
  · intro e t
    cases hp : Cron.parseDuration e with
    | none => simp [Cron.computeNextRun, hp]
    | some ms =>
      have hpos := parseDuration_pos hp
      simp [Cron.computeNextRun, hp, Nat.pos_iff_ne_zero.mp hpos]
  · intro c t
    cases hf : cronFields c with
    | none => simp [Cron.computeNextRun, nextCronFire, hf]
    | some f => simp [Cron.computeNextRun, nextCronFire, hf]
  · intro job t appendOk
    cases hsch : Cron.isOneShot job.schedule with
    | true => simp [Cron.fireJob, hsch]
    | false =>
      cases appendOk with
      | true => simp [Cron.fireJob, hsch]
      | false => simp [Cron.fireJob, hsch]
  · intro job t appendOk h
    cases appendOk with
    | true => simp [Cron.fireJob, h]
    | false => simp [Cron.fireJob, h]
  · intro job patch sch t h
    simp [Cron.applyPatch, h]
  · intro job t h1 h2
    obtain ⟨jid, jname, jenabled, jsched, jpayload, jstate, jcreated⟩ := job
    obtain ⟨jnext, jlast, jstatus, jerr⟩ := jstate
    simp only at h1 h2 ⊢
    subst h1
    rcases h2 with h2 | ⟨v, hv, hvt⟩
    · subst h2
      simp only [Cron.startRecompute]
      split
      · rename_i hcon
        exact absurd trivial hcon
      · split
        · split <;> rfl
        · rename_i hcon
          exact absurd trivial hcon
    · subst hv
      simp only [Cron.startRecompute]
      split
      · rename_i hcon
        exact absurd trivial hcon
      · split
        · split <;> rfl
        · rename_i hcon
          exact absurd (by simpa using hvt) hcon

/-- C6 counterexample: the empty reply has no `STATUS` line, yet
`parseHeartbeatResponse` returns `HEARTBEAT_OK` with `unparsed = false`,
not the claimed `CHAT_YES`-with-raw-content-and-unparsed-flag. -/
theorem c6_failopen_counterexample :
    statusSearch (jsTrimL ("" : String).toList) = none
    ∧ parseHeartbeatResponse "" =
        { status := .HEARTBEAT_OK, reason := "empty response", content := "",
          unparsed := false } := by
  exact ⟨by decide, by decide⟩

/-- C6 (amended to replies that are nonempty after trimming): when no line
of the trimmed reply matches the `STATUS:` pattern, the parse fails open to
`CHAT_YES` with the whole trimmed reply as content and the unparsed flag
set. -/
theorem c6_failopen_amended :
    ∀ raw : String, (jsTrimL raw.toList).isEmpty = false →
      statusSearch (jsTrimL raw.toList) = none →
      parseHeartbeatResponse raw =
        { status := .CHAT_YES, reason := "unparsed response",
          content := String.mk (jsTrimL raw.toList), unparsed := true } := by
  intro raw h1 h2
  have h1' : ¬ (jsTrimL raw.toList).isEmpty = true := by
    intro hcon
    rw [h1] at hcon
    exact Bool.false_ne_true hcon
  rw [parseHeartbeatResponse, if_neg h1', h2]

/-- C6 witness: a concrete unstructured reply taking the fail-open branch. -/
theorem c6_failopen_witness :
    parseHeartbeatResponse "hello" =
      { status := .CHAT_YES, reason := "unparsed response",
        content := String.mk (jsTrimL ("hello" : String).toList), unparsed := true } :=
  c6_failopen_amended "hello" (by decide) (by decide)

/-- Case analysis of one complete heartbeat invocation, shared by the
claims about its pipeline: the result never contains a skip-`empty` event,
and the final dedup state is the record of the attempted text exactly when
delivery succeeded. -/
theorem hb_handleFire_key (activeHours : Option ActiveHours)
    (minutesInTz : String → Int → Nat) (nowMs : Int)
    (engineResult : Except String String) (target : Option Bool)
    (st : HBState) (p : CronFirePayload) :
    ∃ res : HBState × HBOutcome,
      Heartbeat.handleFire activeHours minutesInTz nowMs engineResult target st p = res
      ∧ res.2.events.any isSkipEmpty = false
      ∧ res.1.dedup = (if res.2.delivered then
            { st.dedup with lastText := res.2.deliveryAttempt, lastSentAt := nowMs }
          else st.dedup) := by
  simp only [Heartbeat.handleFire]
  split
  · exact ⟨_, rfl, rfl, rfl⟩
  split
  · exact ⟨_, rfl, rfl, rfl⟩
  split
  · exact ⟨_, rfl, rfl, rfl⟩
  split
  · exact ⟨_, rfl, rfl, rfl⟩
  rename_i replyText
  split
  · exact ⟨_, rfl, rfl, rfl⟩
  rename_i hok
  split
  · exact ⟨_, rfl, rfl, rfl⟩
  rename_i hno
  have hst : (parseHeartbeatResponse replyText).status = .CHAT_YES := by
    cases hx : (parseHeartbeatResponse replyText).status with
    | HEARTBEAT_OK => exact absurd hx hok
    | CHAT_NO => exact absurd hx hno
    | CHAT_YES => rfl
  have hlem := parse_chatYes_text_not_blank replyText hst
  split
  · rename_i hc
    rw [if_pos hc] at hlem
    split
    · rename_i ht
      exact absurd ht hlem
    split
    · exact ⟨_, rfl, rfl, rfl⟩
    split
    · exact ⟨_, rfl, rfl, rfl⟩
    · exact ⟨_, rfl, rfl, rfl⟩
    · exact ⟨_, rfl, rfl, rfl⟩
  · rename_i hc
    rw [if_neg hc] at hlem
    split
    · rename_i ht
      exact absurd ht hlem
    split
    · exact ⟨_, rfl, rfl, rfl⟩
    split
    · exact ⟨_, rfl, rfl, rfl⟩
    · exact ⟨_, rfl, rfl, rfl⟩
    · exact ⟨_, rfl, rfl, rfl⟩

/-- C7 counterexample: a `CHAT_YES` reply whose parsed content is empty is
not skipped with reason `empty`: the handler substitutes the whole raw
reply as the text and proceeds to delivery. -/
theorem c7_skip_empty_counterexample :
    (parseHeartbeatResponse "STATUS: CHAT_YES\nREASON: x").status = .CHAT_YES
    ∧ (parseHeartbeatResponse "STATUS: CHAT_YES\nREASON: x").content = ""
    ∧ (Heartbeat.handleFire none (fun _ _ => 0) 0
          (.ok "STATUS: CHAT_YES\nREASON: x") (some true)
          { processing := false, dedup := freshDedup }
          ⟨"j", "__heartbeat__", "p"⟩).2.events
        = [.done "STATUS: CHAT_YES\nREASON: x" "x" true]
    ∧ (Heartbeat.handleFire none (fun _ _ => 0) 0
          (.ok "STATUS: CHAT_YES\nREASON: x") (some true)
          { processing := false, dedup := freshDedup }
          ⟨"j", "__heartbeat__", "p"⟩).2.deliveryAttempt
        = some "STATUS: CHAT_YES\nREASON: x" := by
  exact ⟨by decide, by decide, by decide, by decide⟩

/-- C7 (amended): the skip-with-reason-`empty` branch is unreachable — for
every input the heartbeat handler appends no `heartbeat.skip` event with
reason `empty`, because a `CHAT_YES` parse always leaves a non-blank
effective text (an empty parsed content falls back to the raw reply, which
is non-blank whenever the parse is `CHAT_YES`). -/
theorem c7_skip_empty_amended :
    ∀ (activeHours : Option ActiveHours) (minutesInTz : String → Int → Nat)
      (nowMs : Int) (engineResult : Except String String) (target : Option Bool)
      (st : HBState) (p : CronFirePayload),
      ((Heartbeat.handleFire activeHours minutesInTz nowMs engineResult target st p).2.events.any
          isSkipEmpty) = false := by
  intro activeHours minutesInTz nowMs engineResult target st p
  obtain ⟨res, hres, h1, _⟩ :=
    hb_handleFire_key activeHours minutesInTz nowMs engineResult target st p
  rw [hres]
  exact h1

/-- C8 counterexample: a delivery attempt that fails (the resolved target's
`deliver` throws) does not record the dedup entry — refuting "every
attempted delivery of a text records it". -/
theorem c8_dedup_record_counterexample :
    (Heartbeat.handleFire none (fun _ _ => 0) 0
        (.ok "STATUS: CHAT_YES\nCONTENT: hi") (some false)
        { processing := false, dedup := freshDedup }
        ⟨"j", "__heartbeat__", "p"⟩).2.deliveryAttempt = some "hi"
    ∧ (Heartbeat.handleFire none (fun _ _ => 0) 0
        (.ok "STATUS: CHAT_YES\nCONTENT: hi") (some false)
        { processing := false, dedup := freshDedup }
        ⟨"j", "__heartbeat__", "p"⟩).2.delivered = false
    ∧ (Heartbeat.handleFire none (fun _ _ => 0) 0
        (.ok "STATUS: CHAT_YES\nCONTENT: hi") (some false)
        { processing := false, dedup := freshDedup }
        ⟨"j", "__heartbeat__", "p"⟩).1.dedup = freshDedup := by
  exact ⟨by decide, by decide, by decide⟩

/-- C8 (amended): the dedup entry is recorded exactly when a delivery
attempt succeeds — after any invocation the dedup state equals the record
of the delivered text at the current time when `delivered` is true, and is
unchanged otherwise (in particular after a failed attempt or when no target
resolves). -/
theorem c8_dedup_record_amended :
    ∀ (activeHours : Option ActiveHours) (minutesInTz : String → Int → Nat)
      (nowMs : Int) (engineResult : Except String String) (target : Option Bool)
      (st : HBState) (p : CronFirePayload),
      (Heartbeat.handleFire activeHours minutesInTz nowMs engineResult target st p).1.dedup
        = (if (Heartbeat.handleFire activeHours minutesInTz nowMs
                engineResult target st p).2.delivered then
            { st.dedup with
              lastText := (Heartbeat.handleFire activeHours minutesInTz nowMs
                  engineResult target st p).2.deliveryAttempt
              lastSentAt := nowMs }
          else st.dedup) := by
  intro activeHours minutesInTz nowMs engineResult target st p
  obtain ⟨res, hres, _, h2⟩ :=
    hb_handleFire_key activeHours minutesInTz nowMs engineResult target st p
  rw [hres]
  exact h2

/-- C9: `update`, `remove` and `runNow` on a job id not present in the
scheduler's collection each fail with the not-found error naming the id,
and leave the job list (every job's definition and state) unchanged. -/
theorem c9_unknown_id_notfound :
    ∀ (jobs : List CronJob) (id : String) (patch : CronJobPatch)
      (nowMs : Int) (appendOk : Bool),
      jobs.find? (fun j => j.id == id) = none →
      Cron.update jobs id patch nowMs = (.error ("cron job not found: " ++ id), jobs)
      ∧ Cron.remove jobs id = (.error ("cron job not found: " ++ id), jobs)
      ∧ Cron.runNow jobs id nowMs appendOk = (.error ("cron job not found: " ++ id), jobs) := by
  intro jobs id patch nowMs appendOk h
  refine ⟨?_, ?_, ?_⟩ <;> simp [Cron.update, Cron.remove, Cron.runNow, h]

/-- C9 witness: the concrete empty collection and an unknown id. -/
theorem c9_unknown_id_notfound_witness :
    Cron.update [] "missing" ⟨none, none, none, none⟩ 0
        = (.error ("cron job not found: " ++ "missing"), [])
    ∧ Cron.remove [] "missing" = (.error ("cron job not found: " ++ "missing"), [])
    ∧ Cron.runNow [] "missing" 0 true
        = (.error ("cron job not found: " ++ "missing"), []) :=
  c9_unknown_id_notfound [] "missing" ⟨none, none, none, none⟩ 0 true rfl

/-- C10: an active-hours window whose `start` or `end` is not a valid
`HH:MM` time makes `isWithinActiveHours` return true at every instant, for
every timezone conversion — a malformed window disables the gate rather
than blocking fires or raising. -/
theorem c10_malformed_window_always_active :
    ∀ (minutesInTz : String → Int → Nat) (ah : ActiveHours) (nowMs : Int),
      parseHHMM ah.start = none ∨ parseHHMM ah.stop = none →
      isWithinActiveHours minutesInTz (some ah) nowMs = true := by
  intro minutesInTz ah nowMs h
  rcases h with h | h
  · cases hstop : parseHHMM ah.stop <;> simp [isWithinActiveHours, h, hstop]
  · cases hstart : parseHHMM ah.start <;> simp [isWithinActiveHours, h, hstart]

/-- C10 witness: an out-of-range hour in `start` disables the gate. -/
theorem c10_malformed_window_witness :
    parseHHMM "25:00" = none
    ∧ isWithinActiveHours (fun _ _ => 600) (some ⟨"25:00", "09:00", "UTC"⟩) 12345 = true :=
  ⟨by decide,
   c10_malformed_window_always_active (fun _ _ => 600) ⟨"25:00", "09:00", "UTC"⟩ 12345
     (Or.inl (by decide))⟩
